import Mathlib

/-!
Shallow embedding of the gb-airspace Go library (paulcager/gb-airspace).

The embedding translates the functions of `airspace.go` (and, where a claim
needs it, the older duplicate copy of the same file preserved as
`unnamed/part_003`) into executable Lean definitions:

* Go `string` values are `List Char` (all data handled by the library is
  ASCII);
* Go `float64` arithmetic is modelled exactly over `ℚ` — every operation the
  library performs on parsed numbers (division by 60/3600, multiplication by
  100 or 1852, comparison) is exact rational arithmetic;
* fallible functions return `Option`/`Except`;
* the two transcendental helpers the library takes from the third-party
  `orb` package (`geo.Bearing`, Web-Mercator projection) and the spherical
  `destinationPoint` are abstracted as function parameters, since no claim
  depends on their numeric values.
-/

namespace Airspace

/-- A WGS84 coordinate pair, longitude first (mirrors `orb.Point`). -/
abbrev Point := ℚ × ℚ

/-- ASCII model of Go's `unicode.IsSpace` as used by `strings.TrimSpace`. -/
def goIsSpace (c : Char) : Bool :=
  c = ' ' || c = '\t' || c = '\n' || c = '\x0b' || c = '\x0c' || c = '\r'

/-- `strings.TrimSpace` (ASCII fragment): drop whitespace from both ends. -/
def trimSpace (s : List Char) : List Char :=
  ((s.dropWhile goIsSpace).reverse.dropWhile goIsSpace).reverse

/-- `strings.ToUpper` (ASCII fragment). -/
def toUpperStr (s : List Char) : List Char := s.map Char.toUpper

/-- `strings.ToLower` (ASCII fragment). -/
def toLowerStr (s : List Char) : List Char := s.map Char.toLower

/-- `strings.TrimSuffix`: remove `suf` from the end of `s` when present. -/
def trimSuffix (s suf : List Char) : List Char :=
  if suf.isSuffixOf s then s.take (s.length - suf.length) else s

/-- `strings.ReplaceAll(s, " ", "-")` specialised to single characters. -/
def replaceAllChar (s : List Char) (oldC newC : Char) : List Char :=
  s.map fun c => if c = oldC then newC else c

/-- Substring `s[a:b]` of a Go string. -/
def slice (s : List Char) (a b : Nat) : List Char := (s.drop a).take (b - a)

/-- Modelled from the spec of Go's standard `strconv.ParseUint(s, 10, 64)`
(source not part of this repository): succeeds exactly on non-empty all-digit
strings, returning their decimal value.  The two- and three-digit groups fed
to it by this library never overflow 64 bits. -/
def parseUint (s : List Char) : Option Nat :=
  if s ≠ [] ∧ s.all Char.isDigit then
    some (s.foldl (fun acc c => 10 * acc + (c.toNat - 48)) 0)
  else none

/-- Modelled from the spec of Go's standard `strconv.ParseFloat(s, 64)`
(source not part of this repository), restricted to finite decimal numerals —
the only inputs this library’s data contains: an optional sign, a mantissa of
digits with an optional decimal point (at least one digit overall), and an
optional exponent part.  Values are exact rationals. -/
def parseFloatDigits (s : List Char) : Option ℚ :=
  match s.span (fun c => c ≠ '.') with
  | (intPart, fracPart) =>
    let frac := fracPart.drop 1
    if (intPart ≠ [] ∨ frac ≠ []) ∧ intPart.all Char.isDigit ∧ frac.all Char.isDigit then
      some (((intPart.foldl (fun acc c => 10 * acc + (c.toNat - 48)) 0 : ℕ) : ℚ) +
        ((frac.foldl (fun acc c => 10 * acc + (c.toNat - 48)) 0 : ℕ) : ℚ) /
          (10 : ℚ) ^ frac.length)
    else none

def parseFloatSigned (s : List Char) : Option ℚ :=
  match s with
  | '+' :: rest => parseFloatDigits rest
  | '-' :: rest => (parseFloatDigits rest).map Neg.neg
  | _ => parseFloatDigits s

def parseFloatExp (s : List Char) : Option ℤ :=
  match s with
  | '+' :: rest => (parseUint rest).map Int.ofNat
  | '-' :: rest => (parseUint rest).map fun n => -(n : ℤ)
  | _ => (parseUint s).map Int.ofNat

def parseFloat (s : List Char) : Option ℚ :=
  match s.span (fun c => c ≠ 'e' ∧ c ≠ 'E') with
  | (mant, expPart) =>
    match expPart with
    | [] => parseFloatSigned mant
    | _ :: expDigits =>
      match parseFloatSigned mant, parseFloatExp expDigits with
      | some m, some e => some (m * (10 : ℚ) ^ e)
      | _, _ => none

/-- `parseLatLng` from `airspace.go`: decode a 16-character
`DDMMSSH DDDMMSSH` position into a `(lon, lat)` point.  `none` models the
single `formatError` value returned by the Go function. -/
def parseLatLng (s : List Char) : Option Point :=
  if s.length ≠ 16 ∨ s.getD 7 'x' ≠ ' ' then none else
  match parseUint (slice s 0 2), parseUint (slice s 2 4), parseUint (slice s 4 6) with
  | some latDeg, some latMin, some latSec =>
    let lat0 : ℚ := (latDeg : ℚ) + (latMin : ℚ) / 60 + (latSec : ℚ) / 3600
    let ns := s.getD 6 'x'
    if ns ≠ 'S' ∧ ns ≠ 'N' then none else
    let lat : ℚ := if ns = 'S' then -lat0 else lat0
    match parseUint (slice s 8 11), parseUint (slice s 11 13), parseUint (slice s 13 15) with
    | some lonDeg, some lonMin, some lonSec =>
      let lon0 : ℚ := (lonDeg : ℚ) + (lonMin : ℚ) / 60 + (lonSec : ℚ) / 3600
      let ew := s.getD 15 'x'
      if ew ≠ 'W' ∧ ew ≠ 'E' then none else
      let lon : ℚ := if ew = 'W' then -lon0 else lon0
      some (lon, lat)
    | _, _, _ => none
  | _, _, _ => none

/-- The older copy of `parseLatLng` kept in `unnamed/part_003` of the
repository.  It is identical to the one in `airspace.go` except that both
seconds groups are divided by `2600.0` instead of `3600.0`. -/
def parseLatLng_part003 (s : List Char) : Option Point :=
  if s.length ≠ 16 ∨ s.getD 7 'x' ≠ ' ' then none else
  match parseUint (slice s 0 2), parseUint (slice s 2 4), parseUint (slice s 4 6) with
  | some latDeg, some latMin, some latSec =>
    let lat0 : ℚ := (latDeg : ℚ) + (latMin : ℚ) / 60 + (latSec : ℚ) / 2600
    let ns := s.getD 6 'x'
    if ns ≠ 'S' ∧ ns ≠ 'N' then none else
    let lat : ℚ := if ns = 'S' then -lat0 else lat0
    match parseUint (slice s 8 11), parseUint (slice s 11 13), parseUint (slice s 13 15) with
    | some lonDeg, some lonMin, some lonSec =>
      let lon0 : ℚ := (lonDeg : ℚ) + (lonMin : ℚ) / 60 + (lonSec : ℚ) / 2600
      let ew := s.getD 15 'x'
      if ew ≠ 'W' ∧ ew ≠ 'E' then none else
      let lon : ℚ := if ew = 'W' then -lon0 else lon0
      some (lon, lat)
    | _, _, _ => none
  | _, _, _ => none

/-- `decodeHeight` from `airspace.go`.  Returns the decoded height in feet
together with a flag recording whether the permissive path fired (the Go code
logs a warning there and keeps the zero value `ParseFloat` returned). -/
def decodeHeight (h : List Char) : ℚ × Bool :=
  let h1 := toUpperStr (trimSpace h)
  if h1 = [] ∨ h1 = "SFC".data then (0, false)
  else if "FL".data.isPrefixOf h1 then
    match parseFloat (h1.drop 2) with
    | some f => (f * 100, false)
    | none => (0 * 100, true)
  else
    let h2 := trimSpace (trimSuffix h1 "FT".data)
    match parseFloat h2 with
    | some f => (f, false)
    | none => (0, true)

def nautMilesToMeters (nm : ℚ) : ℚ := nm * 1852

/-- `decodeDistance` from `airspace.go`: strip a trailing `" nm"`, parse, and
convert nautical miles to meters; a malformed number is logged and treated as
zero (flag mirrors the warning). -/
def decodeDistance (d : List Char) : ℚ × Bool :=
  match parseFloat (trimSuffix d " nm".data) with
  | some f => (nautMilesToMeters f, false)
  | none => (nautMilesToMeters 0, true)

/-- Go map lookup with the zero value `false` for missing keys (the map
literal modelled as an association list with distinct keys). -/
def mapGetBool : List (List Char × Bool) → List Char → Bool
  | [], _ => false
  | (key, v) :: rest, k => if k = key then v else mapGetBool rest k

/-- The `prohibitedAirspaceClasses` map literal from `airspace.go`. -/
def prohibitedAirspaceClasses : List (List Char × Bool) :=
  [("A".data, true), ("B".data, true), ("C".data, true), ("D".data, true),
   ("E".data, true), ("F".data, false), ("G".data, false)]

/-- The `prohibitedTypes` map literal from `airspace.go`. -/
def prohibitedTypes : List (List Char × Bool) :=
  [("ATZ".data, true), ("AWY".data, true), ("CTA".data, true), ("CTR".data, true),
   ("MATZ".data, true), ("P".data, true), ("R".data, true), ("RAT".data, true),
   ("RMZ".data, true), ("TMA".data, true), ("TRA".data, true), ("TMZ".data, true)]

/-- The `dangerTypes` map literal from `airspace.go`. -/
def dangerTypes : List (List Char × Bool) :=
  [("AIAA".data, true), ("D".data, true), ("D_OTHER".data, true), ("DZ".data, true),
   ("GLIDER".data, true), ("GVS".data, false), ("HIRTA".data, true), ("ILS".data, false),
   ("LASER".data, true), ("NOATZ".data, true), ("UL".data, true)]

/-- `Circle` from `airspace.go` (Go's zero value is radius 0, centre (0,0)). -/
structure Circle where
  radius : ℚ := 0
  centre : Point := (0, 0)
deriving DecidableEq, Repr

/-- `Volume` from `airspace.go`; `cls` stands for the Go field `Class`. -/
structure Volume where
  id : List Char := []
  name : List Char := []
  type : List Char := []
  cls : List Char := []
  sequence : Int := 0
  lower : ℚ := 0
  upper : ℚ := 0
  clearanceRequired : Bool := false
  danger : Bool := false
  circle : Circle := {}
  polygon : List Point := []
deriving DecidableEq, Repr

/-- `Feature` from `airspace.go`. -/
structure Feature where
  id : List Char := []
  name : List Char := []
  type : List Char := []
  cls : List Char := []
  geometry : List Volume := []
deriving DecidableEq, Repr

/-- `ClearanceRequired` from `airspace.go`. -/
def ClearanceRequired (f : Feature) : Bool :=
  mapGetBool prohibitedAirspaceClasses f.cls || mapGetBool prohibitedTypes f.type

/-- `Danger` from `airspace.go`. -/
def Danger (f : Feature) : Bool :=
  mapGetBool dangerTypes f.type

/-- The sweep-direction normalization at the top of `arcToPolygon`:
clockwise (`dir > 0`) adds 360° to the final bearing when it is below the
initial one; otherwise the symmetric adjustment is made to the initial
bearing.  Returns (initial, final) after adjustment. -/
def normalizeSweep (dir i f : ℚ) : ℚ × ℚ :=
  if dir > 0 then (i, if f < i then f + 360 else f)
  else (if f > i then i + 360 else i, f)

/-- The bearing-stepping loop of `arcToPolygon`:
`for a := initialAngleDeg; dir*a < dir*finalAngleDeg; a += dir * 10`.
Returns the successive loop-variable values. -/
def arcBearings (dir a f : ℚ) : List ℚ :=
  if h : dir * a < dir * f then
    a :: arcBearings dir (a + dir * 10) f
  else []
termination_by (⌈dir * (f - a) / (dir * dir * 10)⌉).toNat
decreasing_by
  have hd : dir ≠ 0 := by rintro rfl; simp at h
  have hD : 0 < dir * (f - a) := by nlinarith
  have hc : (0:ℚ) < dir * dir * 10 := by
    have := mul_self_pos.mpr hd
    nlinarith
  have key : dir * (f - (a + dir * 10)) / (dir * dir * 10)
      = dir * (f - a) / (dir * dir * 10) - 1 := by field_simp; ring
  rw [key, Int.ceil_sub_one]
  have h1 : 0 < ⌈dir * (f - a) / (dir * dir * 10)⌉ :=
    Int.ceil_pos.mpr (div_pos hD hc)
  omega

/-- `arcToPolygon` from `airspace.go`, abstracted over the third-party
great-circle helpers: `bearing` stands for `geo.Bearing` and `destPoint` for
`destinationPoint` (both transcendental; no claim depends on their values).
The output is the 10°-stepped intermediate points followed by the exact
declared end point. -/
def arcToPolygon (bearing : Point → Point → ℚ) (destPoint : Point → ℚ → ℚ → Point)
    (centre : Point) (radius : ℚ) (initialPoint toPt : Point) (dir : ℚ) : List Point :=
  let initialAngleDeg := bearing centre initialPoint
  let finalAngleDeg := bearing centre toPt
  let n := normalizeSweep dir initialAngleDeg finalAngleDeg
  ((arcBearings dir n.1 n.2).map fun a => destPoint centre a radius) ++ [toPt]

/-- Decimal rendering of a natural number, modelling
`strconv.FormatInt(int64(i), 10)` for the non-negative indices used here. -/
def natToChars (n : ℕ) : List Char :=
  if h : n < 10 then [Char.ofNat (48 + n)]
  else natToChars (n / 10) ++ [Char.ofNat (48 + n % 10)]
termination_by n
decreasing_by exact Nat.div_lt_self (by omega) (by omega)

/-- `resolveAirspaceType` from `airspace.go`. -/
def resolveAirspaceType (airspaceType localType : List Char) : List Char :=
  if airspaceType = "OTHER".data ∨ airspaceType = "D_OTHER".data then localType
  else airspaceType

/-- `resolveFeatureID` from `airspace.go`. -/
def resolveFeatureID (id name : List Char) (index : ℕ) : List Char :=
  let id1 := trimSpace id
  if id1 = [] then toLowerStr (replaceAllChar name ' ' '-') ++ '-' :: natToChars index
  else id1

/-- The anonymous `Circle` struct inside `airspaceResponse`. -/
structure RawCircle where
  radius : List Char := []
  centre : List Char := []
deriving DecidableEq, Repr

/-- The anonymous `Arc` struct inside `airspaceResponse` (`toPt` is the Go
field `To`; `to` is reserved in Lean). -/
structure RawArc where
  dir : List Char := []
  radius : List Char := []
  centre : List Char := []
  toPt : List Char := []
deriving DecidableEq, Repr

/-- One element of the `Boundary` list inside `airspaceResponse`. -/
structure RawBoundary where
  circle : RawCircle := {}
  line : List (List Char) := []
  arc : RawArc := {}
deriving DecidableEq, Repr

/-- One element of the `Geometry` list inside `airspaceResponse`. -/
structure RawGeometry where
  id : List Char := []
  name : List Char := []
  cls : List Char := []
  seqno : Int := 0
  boundary : List RawBoundary := []
  lower : List Char := []
  upper : List Char := []
deriving DecidableEq, Repr

/-- One element of the `Airspace` list inside `airspaceResponse`. -/
structure RawFeature where
  id : List Char := []
  name : List Char := []
  type : List Char := []
  localType : List Char := []
  controlType : List Char := []
  cls : List Char := []
  geometry : List RawGeometry := []
deriving DecidableEq, Repr

/-- `airspaceResponse` from `airspace.go` (the YAML document, already
unmarshalled; `yaml.Unmarshal` is third-party and out of scope). -/
structure AirspaceResponse where
  airspace : List RawFeature := []
deriving DecidableEq, Repr

/-- The decode errors `processGeometry` can produce.  The Go code builds
them with `fmt.Errorf("bad circle …"/"bad line …"/"bad arc …")`; only their
identity matters here, not the message text. -/
inductive DecodeErr where
  | badCircle
  | badLine
  | badArc
deriving DecidableEq, Repr

/-- The signature of `arcToPolygon` as used by `processGeometry`:
centre, radius, initial point, end point, direction. -/
abbrev ArcFn := Point → ℚ → Point → Point → ℚ → List Point

/-- The `for i := range b.Line` loop of `processGeometry`: parse each line
point, append it to the polygon and make it the current position; a parse
failure aborts with the "bad line" error. -/
def appendLinePoints : List (List Char) → Volume → Point → Except DecodeErr (Volume × Point)
  | [], vol, currentPos => .ok (vol, currentPos)
  | p :: ps, vol, _cur =>
    match parseLatLng p with
    | some pt => appendLinePoints ps { vol with polygon := vol.polygon ++ [pt] } pt
    | none => .error .badLine

/-- The `b.Circle` branch of `processGeometry`'s boundary loop: a non-empty
circle radius sets the Volume's circle, failing on a malformed centre. -/
def stepCircle (b : RawBoundary) (vol : Volume) : Except DecodeErr Volume :=
  if b.circle.radius ≠ [] then
    match parseLatLng b.circle.centre with
    | some c => .ok { vol with circle := ⟨(decodeDistance b.circle.radius).1, c⟩ }
    | none => .error .badCircle
  else .ok vol

/-- The `b.Arc` branch of `processGeometry`'s boundary loop.  Faithful
quirk: a malformed arc *centre* is ignored (`centre, _ := parseLatLng(…)`
in the Go code — the zero point is used), while a malformed `To` point
aborts the decode. -/
def stepArc (arcFn : ArcFn) (b : RawBoundary) (vol : Volume) (currentPos : Point) :
    Except DecodeErr Volume :=
  if b.arc.radius ≠ [] then
    match parseLatLng b.arc.toPt with
    | none => .error .badArc
    | some toP =>
      let radius := (decodeDistance b.arc.radius).1
      let centre := (parseLatLng b.arc.centre).getD (0, 0)
      let dir : ℚ := if b.arc.dir = "ccw".data then -1 else 1
      let arc := arcFn centre radius currentPos toP dir
      .ok { vol with polygon := vol.polygon ++ arc }
  else .ok vol

/-- The `for _, b := range g.Boundary` loop of `processGeometry`: circle,
then line points, then arc, threading the current position (which only line
points update). -/
def processBoundaries (arcFn : ArcFn) :
    List RawBoundary → Volume → Point → Except DecodeErr Volume
  | [], vol, _ => .ok vol
  | b :: rest, vol, currentPos =>
    match stepCircle b vol with
    | .error e => .error e
    | .ok vol1 =>
      match appendLinePoints b.line vol1 currentPos with
      | .error e => .error e
      | .ok (vol2, cur2) =>
        match stepArc arcFn b vol2 cur2 with
        | .error e => .error e
        | .ok vol3 => processBoundaries arcFn rest vol3 cur2

/-- `processGeometry` from `airspace.go`: build a `Volume` from one raw
geometry record, inheriting id/name/class from the parent feature. -/
def processGeometry (arcFn : ArcFn) (g : RawGeometry) (feat : Feature) :
    Except DecodeErr Volume :=
  let volID := if g.id = [] then feat.id else g.id
  let volName := if g.name = [] then feat.name else g.name
  let volClass := if g.cls = [] then feat.cls else g.cls
  let vol : Volume := {
    id := volID, name := volName, type := feat.type, cls := volClass,
    sequence := g.seqno,
    lower := (decodeHeight g.lower).1, upper := (decodeHeight g.upper).1,
    clearanceRequired := ClearanceRequired feat, danger := Danger feat }
  processBoundaries arcFn g.boundary vol (0, 0)

/-- The `for _, g := range f.Geometry` loop of `normalise`. -/
def processVols (arcFn : ArcFn) : List RawGeometry → Feature → Except DecodeErr (List Volume)
  | [], _ => .ok []
  | g :: gs, feat =>
    match processGeometry arcFn g feat with
    | .error e => .error e
    | .ok v =>
      match processVols arcFn gs feat with
      | .error e => .error e
      | .ok vs => .ok (v :: vs)

/-- The feature skeleton built at the top of `normalise`'s loop body:
resolved type, resolved (possibly generated) ID, raw name and class. -/
def mkFeat (f : RawFeature) (i : ℕ) : Feature :=
  { id := resolveFeatureID f.id f.name i, name := f.name,
    type := resolveAirspaceType f.type f.localType, cls := f.cls }

/-- The `for i, f := range a.Airspace` loop of `normalise`; `i` is the
running index used for generated feature IDs. -/
def processFeatures (arcFn : ArcFn) : List RawFeature → ℕ → Except DecodeErr (List Feature)
  | [], _ => .ok []
  | f :: fs, i =>
    match processVols arcFn f.geometry (mkFeat f i) with
    | .error e => .error e
    | .ok geoms =>
      match processFeatures arcFn fs (i + 1) with
      | .error e => .error e
      | .ok rest => .ok ({ mkFeat f i with geometry := geoms } :: rest)

/-- `normalise` from `airspace.go` (the whole decode pass after YAML
unmarshalling), abstracted over `arcToPolygon`'s transcendental helpers via
`arcFn`. -/
def normalise (arcFn : ArcFn) (a : AirspaceResponse) : Except DecodeErr (List Feature) :=
  processFeatures arcFn a.airspace 0

/-- Squared planar Euclidean distance. -/
def sqDist (p q : Point) : ℚ := (p.1 - q.1) ^ 2 + (p.2 - q.2) ^ 2

/-- `planar.Distance(p, q) <= r` from the `orb` library, expressed without
the square root: over the reals `sqrt (sqDist p q) ≤ r ↔ 0 ≤ r ∧ sqDist p q ≤ r²`. -/
def distLE (p q : Point) (r : ℚ) : Bool :=
  decide (0 ≤ r ∧ sqDist p q ≤ r ^ 2)

/-- `isEnclosedBy` from `airspace.go`, abstracted over the third-party
Web-Mercator projection (`proj`) and `planar.RingContains` (`ringContains`),
neither of which is code of this repository. -/
def isEnclosedBy (proj : Point → Point) (ringContains : List Point → Point → Bool)
    (p : Point) (vol : Volume) : Bool :=
  if vol.circle.radius ≠ 0 ∧ distLE (proj p) (proj vol.circle.centre) vol.circle.radius then
    true
  else if vol.polygon.length > 0 ∧ ringContains vol.polygon p then
    true
  else false

/-- `EnclosingVolumes` from `airspace.go` (the feature collection modelled as
a list; the Go map iteration order is unspecified and the spec declares the
result order-insensitive). -/
def EnclosingVolumes (proj : Point → Point) (ringContains : List Point → Point → Bool)
    (point : Point) (features : List Feature) : List Volume :=
  (features.map fun f => f.geometry.filter fun v => isEnclosedBy proj ringContains point v).flatten

/-- The fatal-coordinate condition claimed for one boundary primitive: a
present circle with unparseable centre, any unparseable line point, or a
present arc with unparseable `To` point.  (The claim also lists the arc
*centre*; the code ignores that failure — see the C1 counterexample.) -/
def hasFatalBadCoord (b : RawBoundary) : Prop :=
  (b.circle.radius ≠ [] ∧ parseLatLng b.circle.centre = none) ∨
  (∃ p ∈ b.line, parseLatLng p = none) ∨
  (b.arc.radius ≠ [] ∧ parseLatLng b.arc.toPt = none)

/-! ## Theorems -/

/-- C2: for every valid 16-character position string `DDMMSSH DDDMMSSH`, the
position decoder returns the point whose latitude is deg + min/60 + sec/3600
(negated for hemisphere `S`) and whose longitude is deg + min/60 + sec/3600
(negated for hemisphere `W`). -/
theorem parseLatLng_valid (s : List Char)
    (latDeg latMin latSec lonDeg lonMin lonSec : ℕ)
    (hlen : s.length = 16) (hsep : s.getD 7 'x' = ' ')
    (h1 : parseUint (slice s 0 2) = some latDeg)
    (h2 : parseUint (slice s 2 4) = some latMin)
    (h3 : parseUint (slice s 4 6) = some latSec)
    (hns : s.getD 6 'x' = 'N' ∨ s.getD 6 'x' = 'S')
    (h4 : parseUint (slice s 8 11) = some lonDeg)
    (h5 : parseUint (slice s 11 13) = some lonMin)
    (h6 : parseUint (slice s 13 15) = some lonSec)
    (hew : s.getD 15 'x' = 'E' ∨ s.getD 15 'x' = 'W') :
    parseLatLng s = some
      ((if s.getD 15 'x' = 'W'
          then -((lonDeg : ℚ) + (lonMin : ℚ) / 60 + (lonSec : ℚ) / 3600)
          else (lonDeg : ℚ) + (lonMin : ℚ) / 60 + (lonSec : ℚ) / 3600),
       (if s.getD 6 'x' = 'S'
          then -((latDeg : ℚ) + (latMin : ℚ) / 60 + (latSec : ℚ) / 3600)
          else (latDeg : ℚ) + (latMin : ℚ) / 60 + (latSec : ℚ) / 3600)) := by
  rcases hns with h6c | h6c <;> rcases hew with h15c | h15c <;>
    simp_all [parseLatLng, List.getD_eq_getElem]

/-- Witness for C2 at the spec's own example string. -/
theorem parseLatLng_valid_witness :
    parseLatLng "502257N 0033739W".data =
      some (-((3:ℚ) + 37/60 + 39/3600), (50:ℚ) + 22/60 + 57/3600) := by
  have h := parseLatLng_valid "502257N 0033739W".data 50 22 57 3 37 39
    (by decide) (by decide) (by decide) (by decide) (by decide)
    (by decide) (by decide) (by decide) (by decide) (by decide)
  simpa using h

/-- C9 (code bug): the two copies of `parseLatLng` in the repository do not
compute the same function — `airspace.go` divides the seconds groups by 3600,
the copy in `unnamed/part_003` divides them by 2600, so they disagree at the
format's own example coordinate. -/
theorem parseLatLng_copies_differ :
    parseLatLng "502257N 0033739W".data =
      some (-((3:ℚ) + 37/60 + 39/3600), (50:ℚ) + 22/60 + 57/3600) ∧
    parseLatLng_part003 "502257N 0033739W".data =
      some (-((3:ℚ) + 37/60 + 39/2600), (50:ℚ) + 22/60 + 57/2600) ∧
    parseLatLng "502257N 0033739W".data ≠
      parseLatLng_part003 "502257N 0033739W".data := by
  refine ⟨rfl, rfl, ?_⟩
  rw [show parseLatLng "502257N 0033739W".data =
      some (-((3:ℚ) + 37/60 + 39/3600), (50:ℚ) + 22/60 + 57/3600) from rfl,
    show parseLatLng_part003 "502257N 0033739W".data =
      some (-((3:ℚ) + 37/60 + 39/2600), (50:ℚ) + 22/60 + 57/2600) from rfl]
  intro h
  have := (Prod.mk.injEq _ _ _ _).mp (Option.some.injEq _ _ ▸ h)
  norm_num at this

/-- C7: the position decoder fails exactly when the length is not 16, the
fixed-offset separator is not a space, one of the six digit groups fails to
parse as an unsigned integer, or a hemisphere letter is invalid for its axis;
on every other 16-character input it succeeds. -/
theorem parseLatLng_error_iff (s : List Char) :
    parseLatLng s = none ↔
      s.length ≠ 16 ∨ s.getD 7 'x' ≠ ' ' ∨
      parseUint (slice s 0 2) = none ∨ parseUint (slice s 2 4) = none ∨
      parseUint (slice s 4 6) = none ∨
      (s.getD 6 'x' ≠ 'N' ∧ s.getD 6 'x' ≠ 'S') ∨
      parseUint (slice s 8 11) = none ∨ parseUint (slice s 11 13) = none ∨
      parseUint (slice s 13 15) = none ∨
      (s.getD 15 'x' ≠ 'E' ∧ s.getD 15 'x' ≠ 'W') := by
  unfold parseLatLng
  by_cases hl : s.length = 16
  · by_cases hsep : s.getD 7 'x' = ' '
    · rcases e1 : parseUint (slice s 0 2) with _ | d1
      · simp_all
      · rcases e2 : parseUint (slice s 2 4) with _ | d2
        · simp_all
        · rcases e3 : parseUint (slice s 4 6) with _ | d3
          · simp_all
          · by_cases hns : s.getD 6 'x' ≠ 'S' ∧ s.getD 6 'x' ≠ 'N'
            · simp_all
            · rcases e4 : parseUint (slice s 8 11) with _ | d4
              · simp_all
              · rcases e5 : parseUint (slice s 11 13) with _ | d5
                · simp_all
                · rcases e6 : parseUint (slice s 13 15) with _ | d6
                  · simp_all
                  · by_cases hew : s.getD 15 'x' ≠ 'W' ∧ s.getD 15 'x' ≠ 'E'
                    · simp_all
                    · simp_all
                      tauto
    · simp_all
  · simp_all

/-- Association-list lookup with distinct keys returns `true` exactly when
the key is mapped to `true`. -/
lemma mapGetBool_eq_true_iff (l : List (List Char × Bool)) (k : List Char)
    (hnodup : (l.map Prod.fst).Nodup) :
    mapGetBool l k = true ↔ (k, true) ∈ l := by
  induction l with
  | nil => simp [mapGetBool]
  | cons a es ih =>
    obtain ⟨ka, va⟩ := a
    simp only [List.map_cons, List.nodup_cons] at hnodup
    by_cases hk : k = ka
    · subst hk
      cases va
      · simp only [mapGetBool, if_pos rfl, List.mem_cons]
        constructor
        · intro hfalse; exact absurd hfalse (by simp)
        · rintro (hpair | hmem)
          · exact absurd (congrArg Prod.snd hpair) (by simp)
          · exact absurd (List.mem_map.mpr ⟨(k, true), hmem, rfl⟩) hnodup.1
      · simp [mapGetBool]
    · simp [mapGetBool, hk, ih hnodup.2, Prod.mk.injEq]

/-- C8: `ClearanceRequired` holds exactly for class A–E or one of the twelve
prohibited types, `Danger` exactly for the nine danger types; the lookups are
case-sensitive literal tables, witnessed by the two spec examples. -/
theorem classification_tables :
    (∀ f : Feature, ClearanceRequired f = true ↔
      (f.cls = "A".data ∨ f.cls = "B".data ∨ f.cls = "C".data ∨ f.cls = "D".data ∨
       f.cls = "E".data) ∨
      (f.type = "ATZ".data ∨ f.type = "AWY".data ∨ f.type = "CTA".data ∨
       f.type = "CTR".data ∨ f.type = "MATZ".data ∨ f.type = "P".data ∨
       f.type = "R".data ∨ f.type = "RAT".data ∨ f.type = "RMZ".data ∨
       f.type = "TMA".data ∨ f.type = "TRA".data ∨ f.type = "TMZ".data)) ∧
    (∀ f : Feature, Danger f = true ↔
      (f.type = "AIAA".data ∨ f.type = "D".data ∨ f.type = "D_OTHER".data ∨
       f.type = "DZ".data ∨ f.type = "GLIDER".data ∨ f.type = "HIRTA".data ∨
       f.type = "LASER".data ∨ f.type = "NOATZ".data ∨ f.type = "UL".data)) ∧
    ClearanceRequired { cls := "D".data, type := "CTR".data } = true ∧
    ClearanceRequired { cls := "G".data, type := "OTHER".data } = false := by
  refine ⟨fun f => ?_, fun f => ?_, by decide, by decide⟩
  · unfold ClearanceRequired
    rw [Bool.or_eq_true, mapGetBool_eq_true_iff _ _ (by decide),
      mapGetBool_eq_true_iff _ _ (by decide)]
    simp [prohibitedAirspaceClasses, prohibitedTypes, Prod.mk.injEq]
  · unfold Danger
    rw [mapGetBool_eq_true_iff _ _ (by decide)]
    simp [dangerTypes, Prod.mk.injEq]

/-- C5: the height decoder applies its rules in order — trim and uppercase;
empty or `SFC` gives 0; an `FL` prefix gives the remaining number times 100;
otherwise an optional trailing `FT` is stripped and the remainder parsed as
feet — a malformed numeric component is treated as 0 with a warning and never
a hard failure (the function is total and the warning flag forces value 0);
in particular `decodeHeight "SFC" = 0`, `decodeHeight "FL115" = 11500` and
`decodeHeight "1500 ft" = 1500`, case-insensitively. -/
theorem decodeHeight_rules :
    (∀ h : List Char,
       toUpperStr (trimSpace h) = [] ∨ toUpperStr (trimSpace h) = "SFC".data →
       decodeHeight h = (0, false)) ∧
    (∀ h rest, toUpperStr (trimSpace h) = 'F' :: 'L' :: rest →
       decodeHeight h = match parseFloat rest with
                        | some f => (f * 100, false)
                        | none => ((0:ℚ), true)) ∧
    (∀ h, toUpperStr (trimSpace h) ≠ [] → toUpperStr (trimSpace h) ≠ "SFC".data →
       "FL".data.isPrefixOf (toUpperStr (trimSpace h)) = false →
       decodeHeight h =
         match parseFloat (trimSpace (trimSuffix (toUpperStr (trimSpace h)) "FT".data)) with
         | some f => (f, false)
         | none => ((0:ℚ), true)) ∧
    (∀ h, (decodeHeight h).2 = true → (decodeHeight h).1 = 0) ∧
    (decodeHeight "SFC".data).1 = 0 ∧ (decodeHeight "sfc".data).1 = 0 ∧
    (decodeHeight "FL115".data).1 = 11500 ∧ (decodeHeight "fl115".data).1 = 11500 ∧
    (decodeHeight "1500 ft".data).1 = 1500 ∧ (decodeHeight "1500 FT".data).1 = 1500 := by
  refine ⟨?_, ?_, ?_, ?_, rfl, rfl, ?_, ?_, ?_, ?_⟩
  · intro h hc
    rcases hc with hc | hc <;> simp [decodeHeight, hc]
  · intro h rest hr
    have hpre : "FL".data.isPrefixOf ('F' :: 'L' :: rest) = true := by
      simp [List.isPrefixOf]
    simp only [decodeHeight, hr, hpre]
    norm_num
    rcases pf : parseFloat rest with _ | f <;> simp [pf]
  · intro h h1 h2 h3
    simp only [decodeHeight, h3]
    rw [if_neg (by tauto)]
    simp only [Bool.false_eq_true, if_false]
  · intro h hw
    by_cases c1 : toUpperStr (trimSpace h) = [] ∨ toUpperStr (trimSpace h) = "SFC".data
    · simp [decodeHeight, c1] at hw
    · by_cases c2 : "FL".data.isPrefixOf (toUpperStr (trimSpace h)) = true
      · rcases pf : parseFloat ((toUpperStr (trimSpace h)).drop 2) with _ | f
        · simp [decodeHeight, c1, c2, pf]
        · simp [decodeHeight, c1, c2, pf] at hw
      · rcases pf : parseFloat (trimSpace (trimSuffix (toUpperStr (trimSpace h)) "FT".data))
          with _ | f
        · simp [decodeHeight, c1, c2, pf]
        · simp [decodeHeight, c1, c2, pf] at hw
  · rw [show (decodeHeight "FL115".data).1 = ((115:ℚ) + 0 / 10 ^ 0) * 100 from rfl]
    norm_num
  · rw [show (decodeHeight "fl115".data).1 = ((115:ℚ) + 0 / 10 ^ 0) * 100 from rfl]
    norm_num
  · rw [show (decodeHeight "1500 ft".data).1 = (1500:ℚ) + 0 / 10 ^ 0 from rfl]
    norm_num
  · rw [show (decodeHeight "1500 FT".data).1 = (1500:ℚ) + 0 / 10 ^ 0 from rfl]
    norm_num

/-- Witness for C5: the rule clauses applied at concrete inputs. -/
theorem decodeHeight_rules_witness :
    decodeHeight "SFC".data = (0, false) ∧
    (decodeHeight "fl115".data =
      match parseFloat "115".data with
      | some f => (f * 100, false)
      | none => ((0:ℚ), true)) ∧
    (decodeHeight "1500 ft".data =
      match parseFloat
          (trimSpace (trimSuffix (toUpperStr (trimSpace "1500 ft".data)) "FT".data)) with
      | some f => (f, false)
      | none => ((0:ℚ), true)) ∧
    (decodeHeight "XYZ".data).1 = 0 :=
  ⟨decodeHeight_rules.1 "SFC".data (Or.inr rfl),
   decodeHeight_rules.2.1 "fl115".data "115".data rfl,
   decodeHeight_rules.2.2.1 "1500 ft".data (by decide) (by decide) (by decide),
   decodeHeight_rules.2.2.2.1 "XYZ".data rfl⟩

/-- C3: the arc rasterizer's output is never empty and always ends with the
exact declared end point, for every centre, radius, start point, end point
and direction — including sweeps crossing 0°/360°, near-full-circle sweeps,
and coinciding start/end bearings (where the single final point remains). -/
theorem arcToPolygon_ends_at_to
    (bearing : Point → Point → ℚ) (destPoint : Point → ℚ → ℚ → Point)
    (centre : Point) (radius : ℚ) (initialPoint toPt : Point) (dir : ℚ) :
    arcToPolygon bearing destPoint centre radius initialPoint toPt dir ≠ [] ∧
    (arcToPolygon bearing destPoint centre radius initialPoint toPt dir).getLast? =
      some toPt := by
  unfold arcToPolygon
  constructor
  · simp
  · rw [List.getLast?_append_cons]
    rfl

/-- One loop iteration advances the ceiling measure by exactly one, so the
number of generated bearings is the ceiling of the (directed) sweep over 10°. -/
lemma arcBearings_length (dir a f : ℚ) (hd : dir = 1 ∨ dir = -1) :
    (arcBearings dir a f).length = (⌈dir * (f - a) / 10⌉).toNat := by
  have hsq : dir * dir = 1 := by rcases hd with rfl | rfl <;> norm_num
  clear hd
  induction a, f using arcBearings.induct dir with
  | case1 a f h ih =>
    rw [arcBearings, dif_pos h]
    simp only [List.length_cons, ih]
    have key : dir * (f - (a + dir * 10)) / 10 = dir * (f - a) / 10 - 1 := by
      field_simp
      linear_combination (-10 : ℚ) * hsq
    rw [key, Int.ceil_sub_one]
    have hD : 0 < dir * (f - a) := by nlinarith
    have h1 : 0 < ⌈dir * (f - a) / 10⌉ := Int.ceil_pos.mpr (by positivity)
    omega
  | case2 a f h =>
    rw [arcBearings, dif_neg h]
    have hD : dir * (f - a) ≤ 0 := by nlinarith [not_lt.mp h]
    have hq : dir * (f - a) / 10 ≤ ((0:ℤ):ℚ) := by
      push_cast
      exact div_nonpos_iff.mpr (Or.inr ⟨hD, by norm_num⟩)
    have := Int.ceil_le.mpr hq
    simp only [List.length_nil]
    omega

/-- C4: after the sweep-direction normalization, the 10°-stepped bearing
loop reaches its exit condition in finitely many steps — the generated list
has exactly `⌈sweep/10⌉` elements, and at most 36 of them whenever the two
raw bearings are within 360° of each other (as bearings always are). -/
theorem arc_loop_reaches_exit (dir i f i2 f2 : ℚ)
    (hd : dir = 1 ∨ dir = -1) (hrange : |f - i| ≤ 360)
    (hn : normalizeSweep dir i f = (i2, f2)) :
    (arcBearings dir i2 f2).length = (⌈dir * (f2 - i2) / 10⌉).toNat ∧
    (arcBearings dir i2 f2).length ≤ 36 := by
  have hlen := arcBearings_length dir i2 f2 hd
  refine ⟨hlen, ?_⟩
  rw [hlen]
  have habs := abs_le.mp hrange
  have hD : dir * (f2 - i2) ≤ 360 := by
    unfold normalizeSweep at hn
    rcases hd with rfl | rfl
    · rw [if_pos (by norm_num : (1:ℚ) > 0)] at hn
      by_cases hc : f < i
      · simp only [if_pos hc, Prod.mk.injEq] at hn
        obtain ⟨h1, h2⟩ := hn
        subst h1; subst h2
        linarith
      · simp only [if_neg hc, Prod.mk.injEq] at hn
        obtain ⟨h1, h2⟩ := hn
        subst h1; subst h2
        linarith [habs.2]
    · rw [if_neg (by norm_num : ¬((-1:ℚ) > 0))] at hn
      by_cases hc : f > i
      · simp only [if_pos hc, Prod.mk.injEq] at hn
        obtain ⟨h1, h2⟩ := hn
        subst h1; subst h2
        linarith
      · simp only [if_neg hc, Prod.mk.injEq] at hn
        obtain ⟨h1, h2⟩ := hn
        subst h1; subst h2
        linarith [habs.1]
  have h10 : dir * (f2 - i2) / 10 ≤ ((36:ℤ):ℚ) := by push_cast; linarith
  have := Int.ceil_le.mpr h10
  omega

/-- Witness for C4: a counter-clockwise sweep crossing the 0°/360° boundary
(start bearing 10°, end bearing 350°). -/
theorem arc_loop_reaches_exit_witness :
    (arcBearings (-1) 370 350).length = (⌈(-1:ℚ) * (350 - 370) / 10⌉).toNat ∧
    (arcBearings (-1) 370 350).length ≤ 36 :=
  arc_loop_reaches_exit (-1) 10 350 370 350 (Or.inr rfl) (by norm_num)
    (by norm_num [normalizeSweep])

/-- C6: for a Volume whose shape is a non-zero-radius circle, the containment
test compares planar distance of the projected points against the radius
boundary-inclusively: a point at planar distance exactly R is included, a
point at distance R + ε (ε > 0) is excluded. -/
theorem circle_containment_boundary
    (proj : Point → Point) (ring : List Point → Point → Bool)
    (vol : Volume) (R ε : ℚ) (p q : Point)
    (hR : vol.circle.radius = R) (hR0 : 0 < R) (hpoly : vol.polygon = [])
    (hp : sqDist (proj p) (proj vol.circle.centre) = R ^ 2)
    (hε : 0 < ε)
    (hq : sqDist (proj q) (proj vol.circle.centre) = (R + ε) ^ 2) :
    isEnclosedBy proj ring p vol = true ∧ isEnclosedBy proj ring q vol = false := by
  have hdist1 : distLE (proj p) (proj vol.circle.centre) vol.circle.radius = true := by
    unfold distLE
    rw [hR, hp]
    exact decide_eq_true ⟨le_of_lt hR0, le_refl _⟩
  have hdist2 : distLE (proj q) (proj vol.circle.centre) vol.circle.radius = false := by
    unfold distLE
    rw [hR, hq, decide_eq_false_iff_not]
    rintro ⟨h0, hle⟩
    nlinarith
  rw [hR] at hdist1 hdist2
  constructor
  · simp [isEnclosedBy, hdist1, hR, ne_of_gt hR0]
  · simp [isEnclosedBy, hdist2, hR, hpoly]

/-- Witness for C6: unit circle at the origin under the identity projection;
`(1, 0)` lies exactly on the boundary, `(2, 0)` at distance R + 1. -/
theorem circle_containment_boundary_witness :
    isEnclosedBy id (fun _ _ => false) ((1:ℚ), (0:ℚ))
      { circle := ⟨1, ((0:ℚ), (0:ℚ))⟩ } = true ∧
    isEnclosedBy id (fun _ _ => false) ((2:ℚ), (0:ℚ))
      { circle := ⟨1, ((0:ℚ), (0:ℚ))⟩ } = false :=
  circle_containment_boundary id (fun _ _ => false)
    { circle := ⟨1, ((0:ℚ), (0:ℚ))⟩ } 1 1 ((1:ℚ), (0:ℚ)) ((2:ℚ), (0:ℚ))
    rfl (by norm_num) rfl (by norm_num [sqDist]) (by norm_num)
    (by norm_num [sqDist])

/-- `isEnclosedBy` is the plain disjunction of the circle test (radius
non-zero) and the ring test (polygon non-empty). -/
lemma isEnclosedBy_iff (proj : Point → Point) (ring : List Point → Point → Bool)
    (p : Point) (vol : Volume) :
    isEnclosedBy proj ring p vol = true ↔
      (vol.circle.radius ≠ 0 ∧
        distLE (proj p) (proj vol.circle.centre) vol.circle.radius = true) ∨
      (vol.polygon ≠ [] ∧ ring vol.polygon p = true) := by
  unfold isEnclosedBy
  split_ifs with h1 h2 <;> simp_all [List.length_pos]

/-- C10: the containment test is a plain disjunction — true exactly when the
point passes the circle test (non-zero radius) or the ring test (non-empty
polygon), with no mutual-exclusivity enforcement — and consequently a Volume
with zero-radius circle and empty polygon encloses nothing and is never
returned by `EnclosingVolumes`. -/
theorem containment_disjunction :
    (∀ (proj : Point → Point) (ring : List Point → Point → Bool) (p : Point)
       (vol : Volume),
       isEnclosedBy proj ring p vol = true ↔
         (vol.circle.radius ≠ 0 ∧
           distLE (proj p) (proj vol.circle.centre) vol.circle.radius = true) ∨
         (vol.polygon ≠ [] ∧ ring vol.polygon p = true)) ∧
    (∀ (proj : Point → Point) (ring : List Point → Point → Bool) (p : Point)
       (vol : Volume),
       vol.circle.radius = 0 → vol.polygon = [] →
       isEnclosedBy proj ring p vol = false) ∧
    (∀ (proj : Point → Point) (ring : List Point → Point → Bool) (pt : Point)
       (features : List Feature) (v : Volume),
       v ∈ EnclosingVolumes proj ring pt features →
       ¬(v.circle.radius = 0 ∧ v.polygon = [])) := by
  refine ⟨fun proj ring p vol => isEnclosedBy_iff proj ring p vol, ?_, ?_⟩
  · intro proj ring p vol hr hpoly
    rw [Bool.eq_false_iff]
    intro htrue
    rcases (isEnclosedBy_iff proj ring p vol).mp htrue with ⟨h, _⟩ | ⟨h, _⟩
    · exact h hr
    · exact h hpoly
  intro proj ring pt features v hv hcon
  obtain ⟨hr0, hpoly⟩ := hcon
  simp only [EnclosingVolumes, List.mem_flatten, List.mem_map] at hv
  obtain ⟨l, ⟨f, hf, rfl⟩, hvl⟩ := hv
  rw [List.mem_filter] at hvl
  rcases (isEnclosedBy_iff proj ring pt v).mp hvl.2 with ⟨h, _⟩ | ⟨h, _⟩
  · exact h hr0
  · exact h hpoly

/-- Witness for C10: a polygon-only volume is returned by `EnclosingVolumes`
under an always-true ring test, and it indeed has a non-empty shape. -/
theorem containment_disjunction_witness :
    ¬(({ polygon := [((0:ℚ), (0:ℚ))] } : Volume).circle.radius = 0 ∧
      ({ polygon := [((0:ℚ), (0:ℚ))] } : Volume).polygon = []) :=
  containment_disjunction.2.2 id (fun _ _ => true) ((0:ℚ), (0:ℚ))
    [{ geometry := [{ polygon := [((0:ℚ), (0:ℚ))] }] }]
    { polygon := [((0:ℚ), (0:ℚ))] } (by decide)

/-- A malformed line point makes the line loop fail with the bad-line error. -/
lemma appendLinePoints_error (ps : List (List Char)) (vol : Volume) (cur : Point)
    (hbad : ∃ p ∈ ps, parseLatLng p = none) :
    appendLinePoints ps vol cur = .error .badLine := by
  induction ps generalizing vol cur with
  | nil => simp at hbad
  | cons p ps ih =>
    obtain ⟨p0, hp0, hnone⟩ := hbad
    rcases List.mem_cons.mp hp0 with rfl | hmem
    · simp [appendLinePoints, hnone]
    · rcases e : parseLatLng p with _ | pt
      · simp [appendLinePoints, e]
      · simp only [appendLinePoints, e]
        exact ih _ _ ⟨p0, hmem, hnone⟩

/-- A fatal bad coordinate in some boundary makes the boundary loop fail. -/
lemma processBoundaries_error (arcFn : ArcFn) (bs : List RawBoundary)
    (vol : Volume) (cur : Point) (hbad : ∃ b ∈ bs, hasFatalBadCoord b) :
    ∃ e, processBoundaries arcFn bs vol cur = .error e := by
  induction bs generalizing vol cur with
  | nil => simp at hbad
  | cons b rest ih =>
    obtain ⟨b0, hb0, hfatal⟩ := hbad
    rcases ec : stepCircle b vol with e | vol1
    · exact ⟨e, by simp [processBoundaries, ec]⟩
    · rcases el : appendLinePoints b.line vol1 cur with e | vp
      · exact ⟨e, by simp [processBoundaries, ec, el]⟩
      · obtain ⟨vol2, cur2⟩ := vp
        rcases ea : stepArc arcFn b vol2 cur2 with e | vol3
        · exact ⟨e, by simp [processBoundaries, ec, el, ea]⟩
        · rcases List.mem_cons.mp hb0 with rfl | hmem
          · exfalso
            rcases hfatal with ⟨hrad, hc⟩ | ⟨p0, hp0, hc⟩ | ⟨hrad, hc⟩
            · unfold stepCircle at ec
              rw [if_pos hrad, hc] at ec
              simp at ec
            · rw [appendLinePoints_error b0.line vol1 cur ⟨p0, hp0, hc⟩] at el
              simp at el
            · unfold stepArc at ea
              rw [if_pos hrad, hc] at ea
              simp at ea
          · obtain ⟨e, he⟩ := ih vol3 cur2 ⟨b0, hmem, hfatal⟩
            exact ⟨e, by simp [processBoundaries, ec, el, ea, he]⟩

/-- A fatal bad coordinate in a geometry record makes `processGeometry` fail. -/
lemma processGeometry_error (arcFn : ArcFn) (g : RawGeometry) (feat : Feature)
    (hbad : ∃ b ∈ g.boundary, hasFatalBadCoord b) :
    ∃ e, processGeometry arcFn g feat = .error e := by
  unfold processGeometry
  exact processBoundaries_error arcFn g.boundary _ (0, 0) hbad

/-- A fatal bad coordinate in some geometry record makes the volume loop fail. -/
lemma processVols_error (arcFn : ArcFn) (gs : List RawGeometry) (feat : Feature)
    (hbad : ∃ g ∈ gs, ∃ b ∈ g.boundary, hasFatalBadCoord b) :
    ∃ e, processVols arcFn gs feat = .error e := by
  induction gs with
  | nil => simp at hbad
  | cons g rest ih =>
    obtain ⟨g0, hg0, hfatal⟩ := hbad
    rcases eg : processGeometry arcFn g feat with e | v
    · exact ⟨e, by simp [processVols, eg]⟩
    · rcases List.mem_cons.mp hg0 with rfl | hmem
      · obtain ⟨e, he⟩ := processGeometry_error arcFn g0 feat hfatal
        rw [he] at eg
        simp at eg
      · obtain ⟨e, he⟩ := ih ⟨g0, hmem, hfatal⟩
        exact ⟨e, by simp [processVols, eg, he]⟩

/-- A fatal bad coordinate in some feature makes the feature loop fail. -/
lemma processFeatures_error (arcFn : ArcFn) (fs : List RawFeature) (i : ℕ)
    (hbad : ∃ f ∈ fs, ∃ g ∈ f.geometry, ∃ b ∈ g.boundary, hasFatalBadCoord b) :
    ∃ e, processFeatures arcFn fs i = .error e := by
  induction fs generalizing i with
  | nil => simp at hbad
  | cons f rest ih =>
    obtain ⟨f0, hf0, hfatal⟩ := hbad
    rcases ev : processVols arcFn f.geometry (mkFeat f i) with e | geoms
    · exact ⟨e, by simp [processFeatures, ev]⟩
    · rcases List.mem_cons.mp hf0 with rfl | hmem
      · obtain ⟨e, he⟩ := processVols_error arcFn f0.geometry (mkFeat f0 i) hfatal
        rw [he] at ev
        simp at ev
      · obtain ⟨e, he⟩ := ih (i + 1) ⟨f0, hmem, hfatal⟩
        exact ⟨e, by simp [processFeatures, ev, he]⟩

/-- C1 (amended): a malformed circle centre, malformed line point, or
malformed arc `To` point anywhere in the document makes the whole decode fail
with an error — no feature list is produced.  (The claim as frozen also
covers a malformed arc *centre*; the code ignores that one failure, see the
counterexample.) -/
theorem decode_aborts_on_bad_coordinate (arcFn : ArcFn) (a : AirspaceResponse)
    (hbad : ∃ f ∈ a.airspace, ∃ g ∈ f.geometry, ∃ b ∈ g.boundary, hasFatalBadCoord b) :
    ∃ e, normalise arcFn a = Except.error e := by
  unfold normalise
  exact processFeatures_error arcFn a.airspace 0 hbad

/-- Witness for the amended C1: one feature whose only boundary has a
malformed line point; the decode fails. -/
theorem decode_aborts_on_bad_coordinate_witness :
    ∃ e, normalise (fun _ _ _ _ _ => ([] : List Point))
      { airspace := [{ name := "A".data,
                       geometry := [{ boundary := [{ line := ["XX".data] }] }] }] } =
      Except.error e :=
  decode_aborts_on_bad_coordinate _ _
    ⟨{ name := "A".data, geometry := [{ boundary := [{ line := ["XX".data] }] }] },
      by decide,
      { boundary := [{ line := ["XX".data] }] }, by decide,
      { line := ["XX".data] }, by decide,
      Or.inr (Or.inl ⟨"XX".data, by decide, by decide⟩)⟩

/-- C1 counterexample: a document whose only boundary is an arc with a
malformed *centre* coordinate (`"XX"` fails to parse) is decoded successfully
— the decode returns a feature list instead of failing, so the claim as
stated is false for the arc-centre case. -/
theorem decode_accepts_bad_arc_centre :
    parseLatLng "XX".data = none ∧
    normalise (fun _ _ _ _ _ => ([] : List Point))
      { airspace := [{ id := "a".data, name := "A".data, type := "D".data,
                       geometry := [{ seqno := 1,
                                      boundary := [{ arc := { dir := "cw".data,
                                                              radius := "1 nm".data,
                                                              centre := "XX".data,
                                                              toPt := "500000N 0000000E".data } }] }] }] } =
      Except.ok [{ id := "a".data, name := "A".data, type := "D".data,
                   geometry := [{ id := "a".data, name := "A".data, type := "D".data,
                                  sequence := 1, danger := true }] }] :=
  ⟨rfl, rfl⟩

end Airspace
